import Mathlib

/-!
Verification of the qubes-gui-rust repository: a shallow embedding, in Lean,
of the Qubes OS GUI protocol crates (qubes-castable, qubes-gui,
qubes-gui-client, qubes-gui-gntalloc), together with proofs about the
embedded code.

Bytes are modelled as natural numbers below 256, machine integers as natural
numbers with explicit bounds (u32 values live below 2 to the 32), fallible
Rust code as Option-valued Lean functions (a panic or a failed assertion is
modelled as Option.none), and the vchan transport as an explicit byte queue.
-/

namespace QubesGui

/-! ## Little-endian byte encoding helpers

The Rust code casts structs to byte slices in native (little-endian) byte
order; these two functions are the byte-level meaning of that cast for a
single unsigned integer field. -/

/-- Little-endian encoding of a natural number into n bytes. -/
def leBytes : Nat → Nat → List Nat
  | 0, _ => []
  | n + 1, v => (v % 256) :: leBytes n (v / 256)

/-- Little-endian decoding of a byte list into a natural number. -/
def leNum : List Nat → Nat
  | [] => 0
  | b :: bs => b + 256 * leNum bs

/-! ## The POD-cast layer (crate qubes-castable)

The castable! macro declares C structs whose natural layout has no padding
and for which every bit pattern is valid.  A castable type is built from the
permitted leaves (fixed-width unsigned and signed integers, the unit type,
Option of a NonZero integer) by fixed-length arrays and struct aggregation.
Since the Castable byte image of a fixed-length array and of a struct are
both exactly the concatenation of the images of the components, we embed a
fixed-length array of k elements of type t as a struct with k fields of
type t; CType.word n covers the integer leaves of n bytes (a signed integer
is carried by its n-byte two-complement bit pattern, so it is the same byte
semantics as the unsigned one).  CType.optNonZero n embeds
Option of NonZeroUn, whose all-zero image means Rust None. -/

mutual
/-- Type codes for castable types (crate qubes-castable). -/
inductive CType : Type where
  | word (n : Nat)
  | unitC
  | optNonZero (n : Nat)
  | strct (fields : CTypeList)
deriving DecidableEq, Repr

/-- A list of castable field types. -/
inductive CTypeList : Type where
  | nil
  | cons (t : CType) (ts : CTypeList)
deriving DecidableEq, Repr
end

mutual
/-- Values of castable types.  Integer values carry their byte width n so
that the byte image is determined by the value alone, as in Rust where the
width is part of the static type. -/
inductive CVal : Type where
  | word (n v : Nat)
  | unitV
  | noneV (n : Nat)
  | someV (n v : Nat)
  | strct (fields : CValList)
deriving DecidableEq, Repr

/-- A list of castable field values. -/
inductive CValList : Type where
  | nil
  | cons (v : CVal) (vs : CValList)
deriving DecidableEq, Repr
end

mutual
/-- size_of for a castable type: the sum of the field sizes (the castable!
macro statically rejects any struct whose natural layout has padding, so
the struct size is exactly this sum). -/
def sizeOfC : CType → Nat
  | .word n => n
  | .unitC => 0
  | .optNonZero n => n
  | .strct ts => sizeOfL ts

/-- Total size of a field list. -/
def sizeOfL : CTypeList → Nat
  | .nil => 0
  | .cons t ts => sizeOfC t + sizeOfL ts
end

mutual
/-- Whether a value inhabits a castable type with machine-respecting
bounds (an n-byte integer is below 256 ^ n; the payload of a NonZero
integer is nonzero). -/
def wfC : CType → CVal → Bool
  | .word n, .word m v => decide (m = n) && decide (v < 256 ^ n)
  | .unitC, .unitV => true
  | .optNonZero n, .noneV m => decide (m = n)
  | .optNonZero n, .someV m v =>
      decide (m = n) && decide (0 < v) && decide (v < 256 ^ n)
  | .strct ts, .strct vs => wfL ts vs
  | _, _ => false

/-- Field-list version of wfC. -/
def wfL : CTypeList → CValList → Bool
  | .nil, .nil => true
  | .cons t ts, .cons v vs => wfC t v && wfL ts vs
  | _, _ => false
end

mutual
/-- Castable::as_bytes: the little-endian byte image of a castable value
(qubes-castable/src/lib.rs, as_bytes; for structs the image is the
concatenation of the field images because the layout has no padding, and
for Option of a NonZero integer the None variant has the all-zero image,
which is the niche exploited by the Rust layout). -/
def asBytes : CVal → List Nat
  | .word n v => leBytes n v
  | .unitV => []
  | .noneV n => leBytes n 0
  | .someV n v => leBytes n v
  | .strct vs => asBytesL vs

/-- Field-list version of asBytes. -/
def asBytesL : CValList → List Nat
  | .nil => []
  | .cons v vs => asBytes v ++ asBytesL vs
end

mutual
/-- Castable::from_bytes: reads a value of castable type t back from its
byte image (qubes-castable/src/lib.rs, from_bytes).  The Rust function
panics when the slice length differs from size_of of the type; the panic
is modelled as Option.none. -/
def fromBytes : CType → List Nat → Option CVal
  | .word n, bs =>
      if bs.length = n then some (.word n (leNum bs)) else none
  | .unitC, bs => if bs.length = 0 then some .unitV else none
  | .optNonZero n, bs =>
      if bs.length = n then
        if leNum bs = 0 then some (.noneV n) else some (.someV n (leNum bs))
      else none
  | .strct ts, bs => (fromBytesL ts bs).map .strct

/-- Field-list version of fromBytes: reads each field in turn from the
corresponding slice of the byte image. -/
def fromBytesL : CTypeList → List Nat → Option CValList
  | .nil, bs => if bs.isEmpty then some .nil else none
  | .cons t ts, bs =>
      match fromBytes t (bs.take (sizeOfC t)),
            fromBytesL ts (bs.drop (sizeOfC t)) with
      | some v, some vs => some (.cons v vs)
      | _, _ => none
end

/-! ## Protocol vocabulary (crate qubes-gui)

The message structs declared with castable! in src/qubes-gui/src/lib.rs,
given here as castable type codes, one definition per Rust struct, with the
fields in declaration order.  A struct field of struct type is the nested
code; a fixed-length array of k bytes is k one-byte fields (identical byte
layout). -/

/-- Builds a castable field list from a Lean list of type codes. -/
def ctList : List CType → CTypeList
  | [] => .nil
  | t :: ts => .cons t (ctList ts)

/-- The field list of a fixed-length array of n elements of type t: in the
Castable layout an array is laid out exactly like a struct with n fields of
type t. -/
def replicateC : Nat → CType → CTypeList
  | 0, _ => .nil
  | n + 1, t => .cons t (replicateC n t)

/-- A fixed-length array type of n elements of type t. -/
def arrC (n : Nat) (t : CType) : CType := .strct (replicateC n t)

/-- The u32 leaf type. -/
def u32C : CType := .word 4

/-- The u8 leaf type. -/
def u8C : CType := .word 1

/-- struct Header: ty, window, untrusted_len (all u32). -/
def headerC : CType := .strct (ctList [u32C, u32C, u32C])

/-- struct Coordinates: x, y. -/
def coordinatesC : CType := .strct (ctList [u32C, u32C])

/-- struct WindowSize: width, height. -/
def windowSizeC : CType := .strct (ctList [u32C, u32C])

/-- struct Rectangle: top_left, size. -/
def rectangleC : CType := .strct (ctList [coordinatesC, windowSizeC])

/-- struct XConf: size, depth, mem. -/
def xconfC : CType := .strct (ctList [windowSizeC, u32C, u32C])

/-- struct MapInfo: transient_for, override_redirect. -/
def mapInfoC : CType := .strct (ctList [u32C, u32C])

/-- struct Create: rectangle, parent (Option of NonZeroU32),
override_redirect. -/
def createC : CType := .strct (ctList [rectangleC, .optNonZero 4, u32C])

/-- struct Keypress: ty, coordinates, state, keycode. -/
def keypressC : CType := .strct (ctList [u32C, coordinatesC, u32C, u32C])

/-- struct Button: ty, coordinates, state, button. -/
def buttonC : CType := .strct (ctList [u32C, coordinatesC, u32C, u32C])

/-- struct Motion: coordinates, state, is_hint. -/
def motionC : CType := .strct (ctList [coordinatesC, u32C, u32C])

/-- struct Crossing: ty, coordinates, state, mode, detail, focus. -/
def crossingC : CType :=
  .strct (ctList [u32C, coordinatesC, u32C, u32C, u32C, u32C])

/-- struct Configure: rectangle, override_redirect. -/
def configureC : CType := .strct (ctList [rectangleC, u32C])

/-- struct ShmImage: rectangle. -/
def shmImageC : CType := .strct (ctList [rectangleC])

/-- struct Focus: ty, mode, detail. -/
def focusC : CType := .strct (ctList [u32C, u32C, u32C])

/-- struct WMName: data, a 128-byte array. -/
def wmNameC : CType := .strct (ctList [arrC 128 u8C])

/-- struct Unmap: no fields. -/
def unmapC : CType := .strct .nil

/-- struct Dock: no fields. -/
def dockC : CType := .strct .nil

/-- struct Destroy: no fields. -/
def destroyC : CType := .strct .nil

/-- struct KeymapNotify: keys, a 32-byte array. -/
def keymapNotifyC : CType := .strct (ctList [arrC 32 u8C])

/-- struct WindowHints: flags, min_size, max_size, size_increment,
size_base. -/
def windowHintsC : CType :=
  .strct (ctList [u32C, windowSizeC, windowSizeC, windowSizeC, windowSizeC])

/-- struct WindowFlags: set, unset. -/
def windowFlagsC : CType := .strct (ctList [u32C, u32C])

/-- struct ShmCmd: shmid, width, height, bpp, off, num_mfn, domid. -/
def shmCmdC : CType :=
  .strct (ctList [u32C, u32C, u32C, u32C, u32C, u32C, u32C])

/-- struct WMClass: res_class and res_name, two 64-byte arrays. -/
def wmClassC : CType := .strct (ctList [arrC 64 u8C, arrC 64 u8C])

/-- struct WindowDumpHeader: ty, width, height, bpp. -/
def windowDumpHeaderC : CType := .strct (ctList [u32C, u32C, u32C, u32C])

/-- struct Cursor: cursor. -/
def cursorC : CType := .strct (ctList [u32C])

/-- Modelled from the spec: struct XConfVersion (the daemon's handshake
block) is not under src/; per the spec it is a version u32 followed by the
16-byte XConf screen-configuration block, 20 bytes in total. -/
def xconfVersionC : CType := .strct (ctList [u32C, xconfC])

/-! ### Protocol constants (src/qubes-gui/src/lib.rs) -/

/-- Arbitrary maximum size of a clipboard message. -/
def MAX_CLIPBOARD_SIZE : Nat := 65000

/-- Arbitrary max window height. -/
def MAX_WINDOW_HEIGHT : Nat := 6144

/-- Arbitrary max window width. -/
def MAX_WINDOW_WIDTH : Nat := 16384

/-- Bits-per-pixel of the dummy X11 framebuffer driver. -/
def DUMMY_DRV_FB_BPP : Nat := 32

/-- Maximum size of a shared memory segment, in bytes. -/
def MAX_WINDOW_MEM : Nat :=
  MAX_WINDOW_WIDTH * MAX_WINDOW_HEIGHT * (DUMMY_DRV_FB_BPP / 8)

/-- Number of bytes in a shared page. -/
def XC_PAGE_SIZE : Nat := 1 <<< 12

/-- Maximum permissible number of shared pages in a deprecated
privcmd-based segment. -/
def MAX_MFN_COUNT : Nat := (MAX_WINDOW_MEM + XC_PAGE_SIZE - 1) >>> 12

/-- Maximum permissible number of shared pages in a grant-table segment. -/
def MAX_GRANT_REFS_COUNT : Nat := (MAX_WINDOW_MEM + XC_PAGE_SIZE - 1) >>> 12

/-- Modelled from the spec: the PROTOCOL_VERSION constant is not under
src/; the spec gives major 1, minor 4, packed major-high into a u32. -/
def PROTOCOL_VERSION : Nat := (1 <<< 16) + 4

/-- Message types (enum Msg in src/qubes-gui/src/lib.rs). -/
inductive Msg : Type where
  | keypress | button | motion | crossing | focus | resize | create
  | destroy | map | unmap | configure | mfnDump | shmImage | close
  | execute | clipboardReq | clipboardData | setTitle | keymapNotify
  | dock | windowHints | windowFlags | windowClass | windowDump | cursor
deriving DecidableEq, Repr

/-- The wire numbers of the message types (the enum is repr u32 starting at
124, with Unmap pinned to 133 and Dock pinned to 143). -/
def msgToNat : Msg → Nat
  | .keypress => 124
  | .button => 125
  | .motion => 126
  | .crossing => 127
  | .focus => 128
  | .resize => 129
  | .create => 130
  | .destroy => 131
  | .map => 132
  | .unmap => 133
  | .configure => 134
  | .mfnDump => 135
  | .shmImage => 136
  | .close => 137
  | .execute => 138
  | .clipboardReq => 139
  | .clipboardData => 140
  | .setTitle => 141
  | .keymapNotify => 142
  | .dock => 143
  | .windowHints => 144
  | .windowFlags => 145
  | .windowClass => 146
  | .windowDump => 147
  | .cursor => 148

/-- Msg::try_from on a u32 wire number (generated by the enum_const macro):
recognizes exactly the declared wire numbers. -/
def msgOfNat : Nat → Option Msg
  | 124 => some .keypress
  | 125 => some .button
  | 126 => some .motion
  | 127 => some .crossing
  | 128 => some .focus
  | 129 => some .resize
  | 130 => some .create
  | 131 => some .destroy
  | 132 => some .map
  | 133 => some .unmap
  | 134 => some .configure
  | 135 => some .mfnDump
  | 136 => some .shmImage
  | 137 => some .close
  | 138 => some .execute
  | 139 => some .clipboardReq
  | 140 => some .clipboardData
  | 141 => some .setTitle
  | 142 => some .keymapNotify
  | 143 => some .dock
  | 144 => some .windowHints
  | 145 => some .windowFlags
  | 146 => some .windowClass
  | 147 => some .windowDump
  | 148 => some .cursor
  | _ => none

/-- msg_length_limits (src/qubes-gui/src/lib.rs, lines 615 to 646): the
inclusive legal body-length range of a message type, or none for an unknown
type.  A Rust RangeInclusive is modelled as the pair (start, end).  Note
that the WindowHints arm really uses size_of KeymapNotify as its upper
bound, exactly as in the source. -/
def msg_length_limits (ty : Nat) : Option (Nat × Nat) :=
  match msgOfNat ty with
  | none => none
  | some m =>
    match m with
    | .clipboardData => some (0, MAX_CLIPBOARD_SIZE)
    | .button => some (sizeOfC buttonC, sizeOfC buttonC)
    | .keypress => some (sizeOfC keypressC, sizeOfC keypressC)
    | .motion => some (sizeOfC motionC, sizeOfC motionC)
    | .crossing => some (sizeOfC crossingC, sizeOfC crossingC)
    | .focus => some (sizeOfC focusC, sizeOfC focusC)
    | .create => some (sizeOfC createC, sizeOfC createC)
    | .destroy => some (0, 0)
    | .map => some (sizeOfC mapInfoC, sizeOfC mapInfoC)
    | .unmap => some (0, 0)
    | .configure => some (sizeOfC configureC, sizeOfC configureC)
    | .mfnDump => some (0, 4 * MAX_MFN_COUNT)
    | .shmImage => some (sizeOfC shmImageC, sizeOfC shmImageC)
    | .close => some (0, 0)
    | .clipboardReq => some (0, 0)
    | .setTitle => some (sizeOfC wmNameC, sizeOfC wmNameC)
    | .keymapNotify => some (sizeOfC keymapNotifyC, sizeOfC keymapNotifyC)
    | .dock => some (0, 0)
    | .windowHints => some (sizeOfC windowHintsC, sizeOfC keymapNotifyC)
    | .windowFlags => some (sizeOfC windowFlagsC, sizeOfC windowFlagsC)
    | .windowClass => some (sizeOfC wmClassC, sizeOfC wmClassC)
    | .windowDump =>
        some (sizeOfC windowDumpHeaderC,
          sizeOfC windowDumpHeaderC + 4 * MAX_GRANT_REFS_COUNT)
    | .cursor => some (sizeOfC cursorC, sizeOfC cursorC)
    | .execute => none
    | .resize => none

/-- RangeInclusive::contains. -/
def rangeContains (r : Nat × Nat) (n : Nat) : Bool :=
  decide (r.1 ≤ n) && decide (n ≤ r.2)

/-- Modelled from the spec: the length column of the section-6 message
table, written independently of msg_length_limits so the two can be
compared.  Exact lengths are the struct sizes the table lists; the
variable-length rows carry the bounds the table lists; RESIZE and EXECUTE
are treated as unknown (skip), i.e. absent. -/
def specLengthColumn : Msg → Option (Nat × Nat)
  | .keypress => some (20, 20)
  | .button => some (20, 20)
  | .motion => some (16, 16)
  | .crossing => some (28, 28)
  | .focus => some (12, 12)
  | .resize => none
  | .create => some (24, 24)
  | .destroy => some (0, 0)
  | .map => some (8, 8)
  | .unmap => some (0, 0)
  | .configure => some (20, 20)
  | .mfnDump => some (0, 4 * MAX_MFN_COUNT)
  | .shmImage => some (16, 16)
  | .close => some (0, 0)
  | .execute => none
  | .clipboardReq => some (0, 0)
  | .clipboardData => some (0, MAX_CLIPBOARD_SIZE)
  | .setTitle => some (128, 128)
  | .keymapNotify => some (32, 32)
  | .dock => some (0, 0)
  | .windowHints => some (36, 36)
  | .windowFlags => some (8, 8)
  | .windowClass => some (128, 128)
  | .windowDump => some (16, 16 + 4 * MAX_GRANT_REFS_COUNT)
  | .cursor => some (4, 4)

/-! ## Shared-buffer allocator (crate qubes-gui-gntalloc)

WindowDimensions and Buffer::write from src/qubes-gui-gntalloc/src/lib.rs.
The width and height are u32 values; buffer_size is computed in u32
arithmetic and grefs in u32 arithmetic, both modelled on Nat (the proofs
establish the absence of wrap-around below 2 to the 32 for validated
dimensions). -/

/-- WindowDimensions::new (src/qubes-gui-gntalloc/src/lib.rs, lines 44 to
75): validates the dimensions, rejecting a width or height above the
protocol maxima, then a zero width or height; an Err is Option.none. -/
def windowDimensionsNew (width height : Nat) : Option (Nat × Nat) :=
  if width > MAX_WINDOW_WIDTH ∨ height > MAX_WINDOW_HEIGHT then none
  else if width = 0 ∨ height = 0 then none
  else some (width, height)

/-- WindowDimensions::buffer_size: width * height * 4 bytes. -/
def bufferSize (width height : Nat) : Nat := width * height * 4

/-- WindowDimensions::grefs: the number of grant references,
(buffer_size + XC_PAGE_SIZE - 1) / XC_PAGE_SIZE. -/
def grefs (width height : Nat) : Nat :=
  (bufferSize width height + XC_PAGE_SIZE - 1) / XC_PAGE_SIZE

/-- The number of values of the usize type (the Rust platform is 64-bit
amd64); Nat arithmetic beyond this bound corresponds to a usize overflow. -/
def usizeBound : Nat := 2 ^ 64

/-- Buffer::write (src/qubes-gui-gntalloc/src/lib.rs, lines 127 to 147):
copies the given bytes into the mapped framebuffer at the given byte
offset.  The mapped framebuffer is modelled as a function from byte index
to byte.  The four Rust panics (checked_add overflow on offset + len, copy
past the buffer size, fractional-pixel length, fractional-pixel offset) are
modelled as Option.none; on success the result is the updated framebuffer. -/
def bufferWrite (width height : Nat) (fb : Nat → Nat) (buf : List Nat)
    (offset : Nat) : Option (Nat → Nat) :=
  if usizeBound ≤ buf.length + offset then none
  else if ¬ (buf.length + offset ≤ bufferSize width height) then none
  else if ¬ (buf.length % 4 = 0) then none
  else if ¬ (offset % 4 = 0) then none
  else some fun i =>
    if offset ≤ i ∧ i < offset + buf.length then buf.getD (i - offset) 0
    else fb i

/-! ## The write path of the message stream (crate qubes-gui-client)

RawMessageStream keeps an unbounded byte deque (queue) of pending writes.
The vchan write side is modelled by the free space counter (space) and the
list of all bytes handed to vchan send so far (sent); the deque is modelled
as a byte list whose head is the front of the deque. -/

/-- RawMessageStream::write_slice (src/qubes-gui-client/src/buffer.rs,
lines 113 to 121): sends min(buffer_space, len) bytes of the slice, or
nothing when there is no space.  Returns the number of bytes written and
the updated vchan write side. -/
def writeSlice (space : Nat) (sent slice : List Nat) :
    Nat × Nat × List Nat :=
  if space = 0 then (0, space, sent)
  else
    let toWrite := min space slice.length
    (toWrite, space - toWrite, sent ++ slice.take toWrite)

/-- The drain loop of RawMessageStream::flush_pending_writes
(src/qubes-gui-client/src/buffer.rs, lines 125 to 146): repeatedly sends a
chunk of the front of the deque until the deque is empty or a send makes no
progress, then pops the written bytes.  The Rust loop writes the front (or
back) contiguous slice of the VecDeque per iteration; on the list model the
front slice is the whole list.  The loop makes progress on space at every
iteration, so the fuel (instantiated with space + 1 below) is never
exhausted. -/
def flushLoop : Nat → Nat → List Nat → List Nat → Nat × List Nat × List Nat
  | 0, space, sent, wq => (space, sent, wq)
  | fuel + 1, space, sent, wq =>
    if wq.isEmpty then (space, sent, wq)
    else
      match writeSlice space sent wq with
      | (written, space1, sent1) =>
        if written = 0 then (space, sent, wq)
        else flushLoop fuel space1 sent1 (wq.drop written)

/-- RawMessageStream::flush_pending_writes: drain as much of the deque as
the vchan can take without blocking. -/
def flushPendingWrites (space : Nat) (sent wq : List Nat) :
    Nat × List Nat × List Nat :=
  flushLoop (space + 1) space sent wq

/-- RawMessageStream::write (src/qubes-gui-client/src/buffer.rs, lines 154
to 166): flush the deque, then either append the new buffer to the still
nonempty deque, or send a direct chunk of it and queue the remainder. -/
def streamWrite (space : Nat) (sent wq buf : List Nat) :
    Nat × List Nat × List Nat :=
  match flushPendingWrites space sent wq with
  | (space1, sent1, wq1) =>
    if ¬ wq1.isEmpty then (space1, sent1, wq1 ++ buf)
    else
      match writeSlice space1 sent1 buf with
      | (written, space2, sent2) =>
        if written ≠ buf.length then (space2, sent2, buf.drop written)
        else (space2, sent2, [])

/-! ## Client::send_raw window bookkeeping (crate qubes-gui-client)

src/qubes-gui-client/src/lib.rs, lines 58 to 93: on an agent-side Client,
send_raw asserts the window-lifecycle discipline on the present_windows
set before writing the message.  The BTreeSet of NonZeroU32 window IDs is
modelled as a duplicate-free list of Nat; a failed assert! (a process
abort) is modelled as Option.none. -/

/-- The present_windows update and assertions of Client::send_raw: CREATE
asserts the window is new and inserts it, DESTROY asserts the window is
present and removes it, and every other message type asserts the window is
present.  On the daemon side (is_agent false) the set is untouched. -/
def sendRaw (isAgent : Bool) (present : List Nat) (window ty : Nat) :
    Option (List Nat) :=
  if isAgent then
    if ty = msgToNat .create then
      if window ∈ present then none else some (window :: present)
    else if ty = msgToNat .destroy then
      if window ∈ present then some (present.erase window) else none
    else
      if window ∈ present then some present else none
  else some present

/-- A sequence of agent-side send_raw calls, each given as a pair
(window, ty), threaded through the present_windows set; none as soon as
one call fails an assertion. -/
def sendTrace (present : List Nat) : List (Nat × Nat) → Option (List Nat)
  | [] => some present
  | (window, ty) :: rest =>
    match sendRaw true present window ty with
    | none => none
    | some p => sendTrace p rest

/-- Modelled from the spec: the effect of one sent message on whether the
window w is live: a CREATE naming w makes it live, a DESTROY naming w makes
it dead, anything else leaves it unchanged. -/
def liveStep (w : Nat) (acc : Bool) (p : Nat × Nat) : Bool :=
  if p.1 = w ∧ p.2 = msgToNat .create then true
  else if p.1 = w ∧ p.2 = msgToNat .destroy then false
  else acc

/-- Modelled from the spec: a window exists exactly between the CREATE send
and the matching DESTROY send, i.e. it is live after a trace when the last
CREATE or DESTROY naming it is a CREATE. -/
def liveAfter (trace : List (Nat × Nat)) (w : Nat) : Bool :=
  trace.foldl (liveStep w) false

/-! ## The read path of the message stream (crate qubes-gui-client)

RawMessageStream::read_message (src/qubes-gui-client/src/buffer.rs, lines
199 to 311) drives an explicit state machine over the vchan.  The vchan
read side is modelled by the byte queue vq (so data_ready is vq.length)
and the connection status; Read::read on the vchan (libvchan_read) reads
min(requested, available) bytes when data is available, and blocks when
data is requested but none is available, which the model reports as the
distinguished Outcome.blocked. -/

/-- The wire header: type, window, untrusted length (struct Header). -/
structure HeaderS : Type where
  ty : Nat
  window : Nat
  untrustedLen : Nat
deriving DecidableEq, Repr

/-- Reading a Header back from its 12-byte little-endian image (recv into
Header::as_mut_bytes). -/
def decodeHeader (bs : List Nat) : HeaderS :=
  ⟨leNum (bs.take 4), leNum ((bs.drop 4).take 4), leNum ((bs.drop 8).take 4)⟩

/-- The 12-byte little-endian image of a Header. -/
def encodeHeader (ty window len : Nat) : List Nat :=
  leBytes 4 ty ++ leBytes 4 window ++ leBytes 4 len

/-- Status of the vchan (vchan::Status). -/
inductive VStatus : Type where
  | waiting | connected | disconnected
deriving DecidableEq, Repr

/-- enum ReadState (src/qubes-gui-client/src/buffer.rs, lines 31 to 39). -/
inductive ReadState : Type where
  | connecting
  | readingXConf
  | readingHeader
  | readingBody (header : HeaderS) (readSoFar : Nat)
  | discard (n : Nat)
  | error
deriving DecidableEq, Repr

/-- The state of a RawMessageStream together with its vchan: connection
status, incoming byte queue vq, read state, read buffer, reconnect flag,
the xconf block, and the write side (space, sent, write queue). -/
structure MStream : Type where
  status : VStatus
  vq : List Nat
  rstate : ReadState
  buffer : List Nat
  didReconnect : Bool
  xconf : List Nat
  space : Nat
  sent : List Nat
  wq : List Nat
deriving DecidableEq, Repr

/-- The result of one read_message call: a parsed message (Ok(Some)),
nothing yet (Ok(None)), an error (Err), a blocking vchan read (the call
never returns), or exhausted fuel (never reached from readMessage). -/
inductive Outcome : Type where
  | msg (header : HeaderS) (body : List Nat)
  | nothing
  | err
  | blocked
  | fuelOut
deriving DecidableEq, Repr

/-- Read::read on the vchan: take up to k bytes from the front of the
queue; block (none) when k is positive and nothing is available. -/
def recvRaw (vq : List Nat) (k : Nat) : Option (List Nat × List Nat) :=
  if k = 0 then some ([], vq)
  else if vq.isEmpty then none
  else some (vq.take k, vq.drop k)

/-- recv into the byte slice [start, start + len) of a buffer: the read
bytes overwrite that region of the buffer in place.  Returns the updated
buffer, the remaining queue and the number of bytes read. -/
def recvInto (buffer : List Nat) (start len : Nat) (vq : List Nat) :
    Option (List Nat × List Nat × Nat) :=
  match recvRaw vq len with
  | none => none
  | some (taken, rest) =>
    some (buffer.take start ++ taken ++ buffer.drop (start + taken.length),
      rest, taken.length)

/-- Vec::resize(n, 0): truncate or zero-pad the buffer to length n. -/
def resizeList (l : List Nat) (n : Nat) : List Nat :=
  l.take n ++ List.replicate (n - l.length) 0

/-- Whether a loop arm breaks out of read_message with a result or
continues the loop with an updated stream. -/
inductive StepRes : Type where
  | halt (o : Outcome) (s : MStream)
  | next (s : MStream)
deriving DecidableEq, Repr

/-- The ReadState::Discard arm of read_message
(src/qubes-gui-client/src/buffer.rs, lines 269 to 291): with no byte ready
return Ok(None); otherwise grow the scratch buffer to at most
max(min(n, 256), previous length), read min(ready, n, buffer length) bytes
into it, and either finish the discard (back to ReadingHeader), record the
remainder, or fail on an end-of-file zero-length read.  Note the arm does
not decrement the ready count it was entered with. -/
def discardArm (ready n : Nat) (s : MStream) : StepRes :=
  if ready = 0 then .halt .nothing s
  else
    let minBufSize := min n 256
    let buffer1 := resizeList s.buffer (max minBufSize s.buffer.length)
    match recvInto buffer1 0 (min ready (min n buffer1.length)) s.vq with
    | none => .halt .blocked { s with buffer := buffer1 }
    | some (buffer2, vq2, k) =>
      if k = 0 then
        .halt .err { s with buffer := buffer2, vq := vq2, rstate := .error }
      else if k = n then
        .next { s with buffer := buffer2, vq := vq2, rstate := .readingHeader }
      else
        .next { s with buffer := buffer2, vq := vq2,
                       rstate := .discard (n - k) }

/-- The loop of read_message, one iteration per fuel unit.  Matches the
Rust match arm for arm; ready is the data_ready() sample taken when
read_message was entered, decremented only where the source decrements it
(after a header is consumed). -/
def rmLoop : Nat → Nat → MStream → Outcome × MStream
  | 0, _, s => (.fuelOut, s)
  | fuel + 1, ready, s =>
    match s.rstate with
    | .connecting =>
      match s.status with
      | .waiting => (.nothing, s)
      | .connected => rmLoop fuel ready { s with rstate := .readingXConf }
      | .disconnected => (.err, { s with rstate := .error })
    | .error => (.err, s)
    | .readingXConf =>
      if sizeOfC xconfVersionC ≤ ready then
        match recvInto s.xconf 0 (sizeOfC xconfVersionC) s.vq with
        | none => (.blocked, s)
        | some (xconf1, vq1, k) =>
          if k = sizeOfC xconfVersionC then
            (.nothing, { s with vq := vq1, xconf := xconf1,
                                rstate := .readingHeader,
                                didReconnect := true })
          else
            (.err, { s with vq := vq1, xconf := xconf1, rstate := .error })
      else (.nothing, s)
    | .readingHeader =>
      if sizeOfC headerC ≤ ready then
        match recvRaw s.vq (sizeOfC headerC) with
        | none => (.blocked, s)
        | some (taken, rest) =>
          if taken.length = sizeOfC headerC then
            let ready1 := ready - sizeOfC headerC
            let header := decodeHeader taken
            match msg_length_limits header.ty with
            | none =>
              if header.untrustedLen = 0 then
                rmLoop fuel ready1 { s with vq := rest }
              else
                rmLoop fuel ready1
                  { s with vq := rest, rstate := .discard header.untrustedLen }
            | some allowed =>
              if rangeContains allowed header.untrustedLen then
                let buffer1 := resizeList s.buffer header.untrustedLen
                if header.untrustedLen = 0 then
                  (.msg header buffer1,
                    { s with vq := rest, buffer := buffer1,
                             rstate := .readingHeader })
                else
                  rmLoop fuel ready1
                    { s with vq := rest, buffer := buffer1,
                             rstate := .readingBody header 0 }
              else (.err, { s with vq := rest, rstate := .error })
          else (.err, { s with vq := rest, rstate := .error })
      else (.nothing, s)
    | .discard n =>
      match discardArm ready n s with
      | .halt o s1 => (o, s1)
      | .next s1 => rmLoop fuel ready s1
    | .readingBody header readSoFar =>
      if ready = 0 then (.nothing, s)
      else
        let toRead := min ready (s.buffer.length - readSoFar)
        match recvInto s.buffer readSoFar toRead s.vq with
        | none => (.blocked, s)
        | some (buffer1, vq1, k) =>
          if k = toRead then
            (.msg header buffer1,
              { s with buffer := buffer1, vq := vq1,
                       rstate := .readingHeader })
          else if k = 0 then
            (.err, { s with buffer := buffer1, vq := vq1, rstate := .error })
          else
            rmLoop fuel ready
              { s with buffer := buffer1, vq := vq1,
                       rstate := .readingBody header (readSoFar + k) }

/-- RawMessageStream::read_message: flush pending writes, sample
data_ready, then run the state machine loop.  Every loop iteration that
continues consumes at least one queued byte, except the single transition
out of Connecting, so vq.length + 2 units of fuel are never exhausted. -/
def readMessage (s : MStream) : Outcome × MStream :=
  match flushPendingWrites s.space s.sent s.wq with
  | (space1, sent1, wq1) =>
    let s1 := { s with space := space1, sent := sent1, wq := wq1 }
    rmLoop (s1.vq.length + 2) s1.vq.length s1

/-- A sequence of RawMessageStream::write calls: each entry supplies the
buffer-space freed by the peer since the previous call (the peer may read
at any time) and the bytes to write.  Returns the final write side. -/
def writeTrace (space : Nat) (sent wq : List Nat) :
    List (Nat × List Nat) → Nat × List Nat × List Nat
  | [] => (space, sent, wq)
  | (refill, buf) :: rest =>
    match streamWrite (space + refill) sent wq buf with
    | (space1, sent1, wq1) => writeTrace space1 sent1 wq1 rest

/-- The stream a loop arm leaves behind, whether it halts or continues. -/
def resultStream : StepRes → MStream
  | .halt _ s => s
  | .next s => s

/-! ### Concrete streams used as counterexamples and witnesses -/

/-- A connected stream in the ReadingHeader state with empty buffers. -/
def baseStream : MStream :=
  { status := .connected, vq := [], rstate := .readingHeader, buffer := [],
    didReconnect := false, xconf := List.replicate 20 0, space := 0,
    sent := [], wq := [] }

/-- An agent-side stream awaiting the daemon handshake block, with a
daemon XConfVersion ready whose version field is 2 shifted left 16: major
2, minor 0, differing from the agent protocol major 1. -/
def c2Stream : MStream :=
  { baseStream with
      rstate := .readingXConf,
      vq := leBytes 4 (2 <<< 16) ++ List.replicate 16 0 }

/-- A stream about to read a header of unknown type 999 declaring a
10-byte body of which only 5 bytes have arrived. -/
def c4Stream : MStream :=
  { baseStream with vq := encodeHeader 999 7 10 ++ [1, 2, 3, 4, 5] }

/-- A stream about to read a header of unknown type 999 declaring a
5-byte body that is fully available, followed by a complete CLOSE
message on window 1. -/
def c4okStream : MStream :=
  { baseStream with
      vq := encodeHeader 999 7 5 ++ [1, 2, 3, 4, 5] ++
        encodeHeader (msgToNat .close) 1 0 }

/-- A stream about to read a MOTION header whose untrusted length 5 is
outside the legal range (MOTION bodies are exactly 16 bytes). -/
def c3Stream : MStream :=
  { baseStream with vq := encodeHeader (msgToNat .motion) 1 5 ++ [9, 9, 9, 9, 9] }

/-- A stream already in the poisoned Error state with bytes available. -/
def errStream : MStream :=
  { baseStream with rstate := .error, vq := [1, 2, 3] }

/-- The framebuffer contents after the claim-C8 witness write: bytes
7, 8, 9, 10 at offset 0 over an all-zero 1 by 1 framebuffer. -/
def c8Result : Nat → Nat := fun i =>
  if 0 ≤ i ∧ i < 0 + [7, 8, 9, 10].length then [7, 8, 9, 10].getD (i - 0) 0
  else (fun _ => (0 : Nat)) i

/-- A sample Create message value: rectangle at (50, 400) sized 512 by
256, parent window 3, override_redirect 0. -/
def sampleCreateV : CVal :=
  .strct (.cons
    (.strct (.cons (.strct (.cons (.word 4 50) (.cons (.word 4 400) .nil)))
      (.cons (.strct (.cons (.word 4 512) (.cons (.word 4 256) .nil))) .nil)))
    (.cons (.someV 4 3) (.cons (.word 4 0) .nil)))

/-! ## Lemmas on the byte encoding helpers -/

theorem leBytes_length (n v : Nat) : (leBytes n v).length = n := by
  induction n generalizing v with
  | zero => rfl
  | succ n ih => simp [leBytes, ih]

theorem leNum_leBytes (n v : Nat) (h : v < 256 ^ n) : leNum (leBytes n v) = v := by
  induction n generalizing v with
  | zero =>
    simp only [Nat.pow_zero, Nat.lt_one_iff] at h
    simp [leBytes, leNum, h]
  | succ n ih =>
    have hdiv : v / 256 < 256 ^ n := by
      rw [Nat.div_lt_iff_lt_mul (by norm_num)]
      calc v < 256 ^ (n + 1) := h
        _ = 256 ^ n * 256 := by ring
    simp only [leBytes, leNum, ih _ hdiv]
    omega

theorem leBytes_lt (n v : Nat) : ∀ b ∈ leBytes n v, b < 256 := by
  induction n generalizing v with
  | zero => simp [leBytes]
  | succ n ih =>
    intro b hb
    simp only [leBytes, List.mem_cons] at hb
    rcases hb with h | h
    · omega
    · exact ih _ _ h

theorem leNum_lt (bs : List Nat) (h : ∀ b ∈ bs, b < 256) :
    leNum bs < 256 ^ bs.length := by
  induction bs with
  | nil => simp [leNum]
  | cons b bs ih =>
    have hb : b < 256 := h b (List.mem_cons_self _ _)
    have hrest := ih (fun x hx => h x (List.mem_cons_of_mem _ hx))
    simp only [leNum, List.length_cons, Nat.pow_succ]
    calc b + 256 * leNum bs < 256 + 256 * leNum bs := by omega
      _ = 256 * (leNum bs + 1) := by ring
      _ ≤ 256 * 256 ^ bs.length := by
          have : leNum bs + 1 ≤ 256 ^ bs.length := hrest
          exact Nat.mul_le_mul_left _ this
      _ = 256 ^ bs.length * 256 := by ring

/-! ## Lemmas on the POD-cast layer -/

mutual
theorem asBytes_length (t : CType) (v : CVal) (h : wfC t v = true) :
    (asBytes v).length = sizeOfC t := by
  cases t with
  | word n =>
    cases v <;> simp [wfC] at h
    case word m w => simp [asBytes, sizeOfC, leBytes_length, h.1]
  | unitC =>
    cases v <;> simp [wfC] at h
    case unitV => simp [asBytes, sizeOfC]
  | optNonZero n =>
    cases v <;> simp [wfC] at h
    case noneV m => simp [asBytes, sizeOfC, leBytes_length, h]
    case someV m w => simp [asBytes, sizeOfC, leBytes_length, h.1.1]
  | strct ts =>
    cases v <;> simp [wfC] at h
    case strct vs => exact asBytesL_length ts vs h

theorem asBytesL_length (ts : CTypeList) (vs : CValList) (h : wfL ts vs = true) :
    (asBytesL vs).length = sizeOfL ts := by
  cases ts with
  | nil =>
    cases vs <;> simp [wfL] at h
    case nil => simp [asBytesL, sizeOfL]
  | cons t ts =>
    cases vs <;> simp [wfL] at h
    case cons v vs =>
      simp only [asBytesL, sizeOfL, List.length_append,
        asBytes_length t v h.1, asBytesL_length ts vs h.2]
end

mutual
/-- Decoding inverts encoding for every well-formed castable value. -/
theorem fromBytes_asBytes (t : CType) (v : CVal) (h : wfC t v = true) :
    fromBytes t (asBytes v) = some v := by
  cases t with
  | word n =>
    cases v <;> simp [wfC] at h
    case word m w =>
      obtain ⟨h1, hw⟩ := h
      subst h1
      simp [asBytes, fromBytes, leBytes_length, leNum_leBytes m w hw]
  | unitC =>
    cases v <;> simp [wfC] at h
    case unitV => simp [asBytes, fromBytes]
  | optNonZero n =>
    cases v <;> simp [wfC] at h
    case noneV m =>
      subst h
      have h0 : (0 : Nat) < 256 ^ m := Nat.pos_pow_of_pos m (by norm_num)
      simp [asBytes, fromBytes, leBytes_length, leNum_leBytes m 0 h0]
    case someV m w =>
      obtain ⟨⟨h1, hw0⟩, hw⟩ := h
      subst h1
      simp [asBytes, fromBytes, leBytes_length, leNum_leBytes m w hw,
        Nat.pos_iff_ne_zero.mp hw0]
  | strct ts =>
    cases v <;> simp [wfC] at h
    case strct vs =>
      simp [asBytes, fromBytes, fromBytesL_asBytesL ts vs h]
/-- Field-list version of fromBytes_asBytes. -/
theorem fromBytesL_asBytesL (ts : CTypeList) (vs : CValList)
    (h : wfL ts vs = true) : fromBytesL ts (asBytesL vs) = some vs := by
  cases ts with
  | nil =>
    cases vs <;> simp [wfL] at h
    case nil => simp [asBytesL, fromBytesL]
  | cons t ts =>
    cases vs <;> simp [wfL] at h
    case cons v vs =>
      obtain ⟨hv, hvs⟩ := h
      have hlen : (asBytes v).length = sizeOfC t := asBytes_length t v hv
      simp only [asBytesL, fromBytesL]
      rw [← hlen, List.take_left, List.drop_left,
        fromBytes_asBytes t v hv, fromBytesL_asBytesL ts vs hvs]
end

/-! ## Lemmas on the write path -/

theorem writeSlice_inv (space : Nat) (sent slice : List Nat) :
    (writeSlice space sent slice).2.2 =
        sent ++ slice.take (writeSlice space sent slice).1 ∧
      (writeSlice space sent slice).1 ≤ space ∧
      (writeSlice space sent slice).1 ≤ slice.length ∧
      (writeSlice space sent slice).2.1 =
        space - (writeSlice space sent slice).1 := by
  simp only [writeSlice]
  split_ifs with h
  · subst h
    exact ⟨by simp, Nat.le_refl 0, Nat.zero_le _, rfl⟩
  · exact ⟨rfl, Nat.min_le_left _ _, Nat.min_le_right _ _, rfl⟩

theorem flushLoop_inv (fuel : Nat) :
    ∀ (space : Nat) (sent wq : List Nat),
      (flushLoop fuel space sent wq).2.1 ++ (flushLoop fuel space sent wq).2.2 =
          sent ++ wq ∧
        (∃ u, (flushLoop fuel space sent wq).2.1 = sent ++ u) ∧
        (flushLoop fuel space sent wq).1 +
            (flushLoop fuel space sent wq).2.1.length =
          space + sent.length := by
  induction fuel with
  | zero =>
    intro space sent wq
    exact ⟨by simp [flushLoop], ⟨[], by simp [flushLoop]⟩, by simp [flushLoop]⟩
  | succ fuel ih =>
    intro space sent wq
    obtain ⟨hsent, hsp, hlen, hspace⟩ := writeSlice_inv space sent wq
    rcases hws : writeSlice space sent wq with ⟨written, space1, sent1⟩
    rw [hws] at hsent hsp hlen hspace
    simp only at hsent hsp hlen hspace
    simp only [flushLoop, hws]
    split_ifs with hq hw
    · exact ⟨by simp, ⟨[], by simp⟩, rfl⟩
    · exact ⟨by simp, ⟨[], by simp⟩, rfl⟩
    · obtain ⟨ih1, ⟨u, ih2⟩, ih3⟩ := ih space1 sent1 (wq.drop written)
      subst hsent
      refine ⟨?_, ⟨wq.take written ++ u, by simp [ih2]⟩, ?_⟩
      · rw [ih1]
        simp
      · rw [ih3]
        simp only [List.length_append, List.length_take]
        omega

theorem flushPendingWrites_inv (space : Nat) (sent wq : List Nat) :
    (flushPendingWrites space sent wq).2.1 ++
          (flushPendingWrites space sent wq).2.2 =
        sent ++ wq ∧
      (∃ u, (flushPendingWrites space sent wq).2.1 = sent ++ u) ∧
      (flushPendingWrites space sent wq).1 +
          (flushPendingWrites space sent wq).2.1.length =
        space + sent.length :=
  flushLoop_inv (space + 1) space sent wq

theorem streamWrite_inv (space : Nat) (sent wq buf : List Nat) :
    (streamWrite space sent wq buf).2.1 ++ (streamWrite space sent wq buf).2.2 =
        sent ++ (wq ++ buf) ∧
      (∃ u, (streamWrite space sent wq buf).2.1 = sent ++ u) ∧
      (streamWrite space sent wq buf).2.1.length ≤ sent.length + space := by
  obtain ⟨h1, ⟨u, h2⟩, h3⟩ := flushPendingWrites_inv space sent wq
  rcases hF : flushPendingWrites space sent wq with ⟨space1, sent1, wq1⟩
  rw [hF] at h1 h2 h3
  simp only at h1 h2 h3
  simp only [streamWrite, hF]
  rcases wq1 with _ | ⟨b, bs⟩
  · simp only [List.isEmpty_nil, not_true_eq_false, if_false]
    simp only [List.append_nil] at h1
    obtain ⟨g1, g2, g3, g4⟩ := writeSlice_inv space1 sent1 buf
    rcases hW : writeSlice space1 sent1 buf with ⟨written, space2, sent2⟩
    rw [hW] at g1 g2 g3 g4
    simp only at g1 g2 g3 g4
    simp only [hW]
    have hlen2 : sent2.length = sent1.length + written := by
      rw [g1]
      simp only [List.length_append, List.length_take]
      omega
    split_ifs with hne
    · refine ⟨?_, ⟨u ++ buf.take written,
        by show sent2 = _; rw [g1, h2, List.append_assoc]⟩, ?_⟩
      · show sent2 ++ buf.drop written = sent ++ (wq ++ buf)
        rw [g1, h1, List.append_assoc, List.take_append_drop,
          List.append_assoc]
      · show sent2.length ≤ sent.length + space
        omega
    · push_neg at hne
      refine ⟨?_, ⟨u ++ buf.take written,
        by show sent2 = _; rw [g1, h2, List.append_assoc]⟩, ?_⟩
      · show sent2 ++ [] = sent ++ (wq ++ buf)
        rw [g1, h1, hne, List.take_length]
        simp [List.append_assoc]
      · show sent2.length ≤ sent.length + space
        omega
  · simp only [List.isEmpty_cons, not_false_eq_true, if_true]
    refine ⟨?_, ⟨u, h2⟩, ?_⟩
    · show sent1 ++ (b :: bs ++ buf) = sent ++ (wq ++ buf)
      rw [← List.append_assoc, h1, List.append_assoc]
    · show sent1.length ≤ sent.length + space
      omega

theorem writeTrace_inv (ops : List (Nat × List Nat)) :
    ∀ (space : Nat) (sent wq : List Nat),
      (writeTrace space sent wq ops).2.1 ++ (writeTrace space sent wq ops).2.2 =
          sent ++ (wq ++ (ops.map Prod.snd).flatten) ∧
        ∃ u, (writeTrace space sent wq ops).2.1 = sent ++ u := by
  induction ops with
  | nil =>
    intro space sent wq
    exact ⟨by simp [writeTrace], ⟨[], by simp [writeTrace]⟩⟩
  | cons op rest ih =>
    intro space sent wq
    rcases op with ⟨refill, buf⟩
    obtain ⟨w1, ⟨u, w2⟩, _⟩ := streamWrite_inv (space + refill) sent wq buf
    rcases hS : streamWrite (space + refill) sent wq buf with ⟨sp1, st1, wq1⟩
    rw [hS] at w1 w2
    simp only at w1 w2
    simp only [writeTrace, hS]
    obtain ⟨ih1, ⟨u2, ih2⟩⟩ := ih sp1 st1 wq1
    constructor
    · rw [ih1, ← List.append_assoc, w1]
      simp [List.append_assoc]
    · exact ⟨u ++ u2, by rw [ih2, w2, List.append_assoc]⟩

/-! ## Lemmas on the read path primitives -/

theorem isEmpty_false_of_length_pos {α : Type} (l : List α)
    (h : 0 < l.length) : l.isEmpty = false := by
  cases l
  · simp at h
  · rfl

theorem recvRaw_of_le (vq : List Nat) (k : Nat) (hk : k ≠ 0)
    (h : k ≤ vq.length) :
    recvRaw vq k = some (vq.take k, vq.drop k) ∧ (vq.take k).length = k := by
  have hne : vq.isEmpty = false := isEmpty_false_of_length_pos vq (by omega)
  constructor
  · unfold recvRaw
    rw [if_neg hk, hne]
    simp
  · simp only [List.length_take]
    omega

theorem resizeList_length (l : List Nat) (n : Nat) :
    (resizeList l n).length = n := by
  simp only [resizeList, List.length_append, List.length_take,
    List.length_replicate]
  omega

theorem encodeHeader_length (ty win n : Nat) :
    (encodeHeader ty win n).length = 12 := by
  simp [encodeHeader, leBytes_length]

theorem decodeHeader_encodeHeader (ty win n : Nat) (hty : ty < 2 ^ 32)
    (hwin : win < 2 ^ 32) (hn : n < 2 ^ 32) :
    decodeHeader (encodeHeader ty win n) = ⟨ty, win, n⟩ := by
  have hb : (2 : Nat) ^ 32 = 256 ^ 4 := by norm_num
  rw [hb] at hty hwin hn
  have l1 : (leBytes 4 ty).length = 4 := leBytes_length 4 ty
  have l2 : (leBytes 4 win).length = 4 := leBytes_length 4 win
  have l3 : (leBytes 4 n).length = 4 := leBytes_length 4 n
  unfold decodeHeader encodeHeader
  congr 1
  · rw [List.append_assoc, List.take_left' l1, leNum_leBytes 4 ty hty]
  · rw [List.append_assoc, List.drop_left' l1, List.take_left' l2,
      leNum_leBytes 4 win hwin]
  · rw [List.drop_left' (by simp [l1, l2] :
        (leBytes 4 ty ++ leBytes 4 win).length = 8)]
    rw [List.take_of_length_le (by omega), leNum_leBytes 4 n hn]


/-! ## Lemmas on the read-path state machine -/

theorem readMessage_error_state (s : MStream) (hst : s.rstate = .error) :
    (readMessage s).1 = .err ∧ (readMessage s).2.rstate = .error := by
  rcases hF : flushPendingWrites s.space s.sent s.wq with ⟨sp1, st1, w1⟩
  simp only [readMessage, hF]
  simp [rmLoop, hst]

theorem readMessage_out_of_range (s : MStream) (ty win n lo hi : Nat) (rest : List Nat)
    (hst : s.rstate = .readingHeader)
    (hvq : s.vq = encodeHeader ty win n ++ rest)
    (hty : ty < 2 ^ 32) (hwin : win < 2 ^ 32) (hn : n < 2 ^ 32)
    (hlim : msg_length_limits ty = some (lo, hi))
    (hout : ¬ (lo ≤ n ∧ n ≤ hi)) :
    (readMessage s).1 = .err ∧ (readMessage s).2.rstate = .error := by
  rcases hF : flushPendingWrites s.space s.sent s.wq with ⟨sp1, st1, w1⟩
  simp only [readMessage, hF]
  have hlen : s.vq.length = 12 + rest.length := by
    rw [hvq]
    simp [encodeHeader_length]
  have hsz : sizeOfC headerC = 12 := rfl
  have hrecv := recvRaw_of_le s.vq 12 (by omega) (by omega)
  have htake : s.vq.take 12 = encodeHeader ty win n := by
    rw [hvq, List.take_left' (encodeHeader_length ty win n)]
  have hdrop : s.vq.drop 12 = rest := by
    rw [hvq, List.drop_left' (encodeHeader_length ty win n)]
  simp only [rmLoop, hst, hsz, hlen]
  rw [if_pos (by omega)]
  rw [hrecv.1, htake, hdrop]
  simp only [encodeHeader_length, if_pos]
  rw [decodeHeader_encodeHeader ty win n hty hwin hn]
  simp only [hlim]
  have hrc : rangeContains (lo, hi) n = false := by
    simp [rangeContains]
    omega
  simp [hrc]

theorem readMessage_xconf_stores_any_version (s : MStream) (hst : s.rstate = .readingXConf)
    (hx : s.xconf.length = 20) (hlen : 20 ≤ s.vq.length) :
    (readMessage s).1 = .nothing ∧ (readMessage s).2.rstate = .readingHeader ∧
      (readMessage s).2.didReconnect = true ∧
      (readMessage s).2.xconf = s.vq.take 20 := by
  rcases hF : flushPendingWrites s.space s.sent s.wq with ⟨sp1, st1, w1⟩
  simp only [readMessage, hF]
  have hsz : sizeOfC xconfVersionC = 20 := rfl
  have hrecv := recvRaw_of_le s.vq 20 (by omega) hlen
  simp only [rmLoop, hst, hsz]
  rw [if_pos (by omega)]
  simp only [recvInto, hrecv.1, hrecv.2, if_true]
  refine ⟨trivial, trivial, trivial, ?_⟩
  show s.xconf.take 0 ++ s.vq.take 20 ++ s.xconf.drop (0 + 20) = s.vq.take 20
  rw [List.take_zero, List.nil_append, List.drop_eq_nil_of_le (by omega),
    List.append_nil]

theorem recvRaw_length (vq : List Nat) (k : Nat) (taken rest : List Nat)
    (h : recvRaw vq k = some (taken, rest)) : taken.length ≤ k := by
  unfold recvRaw at h
  split_ifs at h with h1 h2
  · simp only [Option.some_inj, Prod.mk.injEq] at h
    rw [← h.1]
    simp
  · simp only [Option.some_inj, Prod.mk.injEq] at h
    rw [← h.1]
    simp only [List.length_take]
    omega

theorem recvInto_some_length (buffer : List Nat) (start len : Nat)
    (vq b2 vq2 : List Nat) (k : Nat)
    (h : recvInto buffer start len vq = some (b2, vq2, k))
    (hle : start + len ≤ buffer.length) :
    b2.length = buffer.length ∧ k ≤ len := by
  unfold recvInto at h
  rcases hr : recvRaw vq len with _ | ⟨taken, rest⟩
  · rw [hr] at h
    simp at h
  · rw [hr] at h
    simp only [Option.some_inj, Prod.mk.injEq] at h
    obtain ⟨hb, _, hk⟩ := h
    have htl : taken.length ≤ len := recvRaw_length vq len taken rest hr
    constructor
    · rw [← hb]
      simp only [List.length_append, List.length_take, List.length_drop]
      omega
    · omega

theorem discardArm_buffer_bound (ready n : Nat) (s : MStream) :
    (resultStream (discardArm ready n s)).buffer.length ≤
      max 256 s.buffer.length := by
  unfold discardArm
  split_ifs with h0
  · simp only [resultStream]
    omega
  · have hb1 := resizeList_length s.buffer (max (min n 256) s.buffer.length)
    rcases hri : recvInto (resizeList s.buffer (max (min n 256) s.buffer.length))
        0 (min ready (min n (resizeList s.buffer
          (max (min n 256) s.buffer.length)).length))
        s.vq with _ | ⟨b2, vq2, k⟩
    · simp only [hri, resultStream]
      omega
    · have := recvInto_some_length _ 0 _ s.vq b2 vq2 k hri (by omega)
      simp only [hri]
      split_ifs with hk hn2 <;> simp only [resultStream] <;> omega

theorem windowDimensionsNew_isSome_iff (w h : Nat) :
    (windowDimensionsNew w h).isSome ↔
      (0 < w ∧ w ≤ MAX_WINDOW_WIDTH ∧ 0 < h ∧ h ≤ MAX_WINDOW_HEIGHT) := by
  unfold windowDimensionsNew
  split_ifs with h1 h2 <;> simp_all <;> omega

theorem windowDimensions_numeric (w h : Nat) (_hw1 : 0 < w) (hw2 : w ≤ MAX_WINDOW_WIDTH)
    (_hh1 : 0 < h) (hh2 : h ≤ MAX_WINDOW_HEIGHT) :
    bufferSize w h = 4 * w * h ∧ bufferSize w h < 2 ^ 32 ∧
      4 * w * h ≤ grefs w h * XC_PAGE_SIZE ∧
      grefs w h * XC_PAGE_SIZE < 4 * w * h + XC_PAGE_SIZE ∧
      grefs w h ≤ MAX_GRANT_REFS_COUNT := by
  have hpg : XC_PAGE_SIZE = 4096 := rfl
  have hbs : bufferSize w h = 4 * w * h := by unfold bufferSize; ring
  have hmax : bufferSize w h ≤ 402653184 := by
    unfold bufferSize
    calc w * h * 4 ≤ MAX_WINDOW_WIDTH * MAX_WINDOW_HEIGHT * 4 :=
          Nat.mul_le_mul_right 4 (Nat.mul_le_mul hw2 hh2)
      _ = 402653184 := by decide
  have hgr : grefs w h = (bufferSize w h + 4095) / 4096 := by
    unfold grefs
    rw [hpg]
    congr 1
  have hdm := Nat.div_add_mod (bufferSize w h + 4095) 4096
  have hmod := Nat.mod_lt (bufferSize w h + 4095) (show 0 < 4096 by decide)
  have hglit : MAX_GRANT_REFS_COUNT = 98304 := by decide
  refine ⟨hbs, by omega, ?_, ?_, ?_⟩
  · rw [hpg, hgr, ← hbs]
    omega
  · rw [hpg, hgr, ← hbs]
    omega
  · rw [hgr, hglit]
    calc (bufferSize w h + 4095) / 4096 ≤ (402653184 + 4095) / 4096 :=
          Nat.div_le_div_right (by omega)
      _ = 98304 := by decide

theorem windowDimensionsNew_max_ok : (windowDimensionsNew MAX_WINDOW_WIDTH MAX_WINDOW_HEIGHT).isSome := by decide

theorem bufferWrite_isSome_iff (w h : Nat) (fb : Nat → Nat) (buf : List Nat) (offset : Nat) :
    (bufferWrite w h fb buf offset).isSome ↔
      (buf.length + offset < usizeBound ∧
        buf.length + offset ≤ bufferSize w h ∧
        buf.length % 4 = 0 ∧ offset % 4 = 0) := by
  unfold bufferWrite
  split_ifs with h1 h2 h3 h4 <;> simp_all

theorem bufferWrite_copy (w h : Nat) (fb : Nat → Nat) (buf : List Nat)
    (offset : Nat) (fb2 : Nat → Nat)
    (hw : bufferWrite w h fb buf offset = some fb2) :
    (∀ i, i < buf.length → fb2 (offset + i) = buf.getD i 0) ∧
      (∀ i, fb2 i ≠ fb i →
        offset ≤ i ∧ i < offset + buf.length ∧ i < bufferSize w h) := by
  unfold bufferWrite at hw
  split_ifs at hw with h1 h2 h3 h4
  push_neg at h2
  obtain rfl : fb2 = _ := (Option.some_inj.mp hw).symm
  constructor
  · intro i hi
    have hc : offset ≤ offset + i ∧ offset + i < offset + buf.length := by omega
    simp only [hc, and_self, if_true]
    rw [show offset + i - offset = i by omega]
  · intro i hne
    by_cases hc : offset ≤ i ∧ i < offset + buf.length
    · exact ⟨hc.1, hc.2, by omega⟩
    · exfalso
      apply hne
      simp only [hc, if_false]


/-! ## Lemmas on the send_raw window bookkeeping -/

theorem liveStep_create (w win : Nat) (acc : Bool) :
    liveStep w acc (win, msgToNat .create) =
      (decide (w = win) || acc) := by
  unfold liveStep
  by_cases hww : win = w
  · simp [hww]
  · rw [if_neg (by intro hcon; exact hww hcon.1),
      if_neg (by intro hcon; exact hww hcon.1)]
    simp [Ne.symm hww]

theorem sendTrace_mem (trace : List (Nat × Nat)) :
    ∀ (p S : List Nat), p.Nodup → sendTrace p trace = some S →
      S.Nodup ∧
        ∀ w, (w ∈ S ↔ trace.foldl (liveStep w) (decide (w ∈ p)) = true) := by
  induction trace with
  | nil =>
    intro p S hnd hs
    simp only [sendTrace, Option.some_inj] at hs
    subst hs
    exact ⟨hnd, fun w => by simp⟩
  | cons op rest ih =>
    intro p S hnd hs
    rcases op with ⟨win, ty⟩
    simp only [sendTrace] at hs
    rcases hsr : sendRaw true p win ty with _ | p1
    · rw [hsr] at hs
      exact absurd hs (by simp)
    · rw [hsr] at hs
      simp only at hs
      unfold sendRaw at hsr
      rw [if_pos rfl] at hsr
      by_cases hc : ty = msgToNat .create
      · subst hc
        rw [if_pos rfl] at hsr
        by_cases hm : win ∈ p
        · rw [if_pos hm] at hsr
          exact absurd hsr (by simp)
        · rw [if_neg hm] at hsr
          obtain rfl : win :: p = p1 := Option.some_inj.mp hsr
          obtain ⟨hS, hmem⟩ := ih (win :: p) S (by simp [hnd, hm]) hs
          refine ⟨hS, fun w => ?_⟩
          rw [hmem w, List.foldl_cons, liveStep_create]
          have hinit : (decide (w = win) || decide (w ∈ p)) =
              decide (w ∈ win :: p) := by
            by_cases hww : w = win <;> simp [hww, List.mem_cons]
          rw [hinit]
      · rw [if_neg hc] at hsr
        by_cases hd : ty = msgToNat .destroy
        · subst hd
          rw [if_pos rfl] at hsr
          by_cases hm : win ∈ p
          · rw [if_pos hm] at hsr
            obtain rfl : p.erase win = p1 := Option.some_inj.mp hsr
            obtain ⟨hS, hmem⟩ := ih (p.erase win) S (hnd.erase win) hs
            refine ⟨hS, fun w => ?_⟩
            rw [hmem w, List.foldl_cons]
            have hstep : liveStep w (decide (w ∈ p)) (win, msgToNat .destroy) =
                decide (w ∈ p.erase win) := by
              unfold liveStep
              have hne : msgToNat Msg.destroy ≠ msgToNat Msg.create := by decide
              rw [if_neg (by intro hcon; exact hne hcon.2)]
              by_cases hww : win = w
              · subst hww
                rw [if_pos ⟨rfl, rfl⟩]
                have hni : win ∉ p.erase win := fun hcon =>
                  ((hnd.mem_erase_iff).mp hcon).1 rfl
                simp [hni]
              · rw [if_neg (by intro hcon; exact hww hcon.1)]
                have hiff : w ∈ p.erase win ↔ w ∈ p := by
                  rw [hnd.mem_erase_iff]
                  constructor
                  · exact fun hcon => hcon.2
                  · exact fun hcon => ⟨Ne.symm hww, hcon⟩
                simp [hiff]
            rw [hstep]
          · rw [if_neg hm] at hsr
            exact absurd hsr (by simp)
        · rw [if_neg hd] at hsr
          by_cases hm : win ∈ p
          · rw [if_pos hm] at hsr
            obtain rfl : p = p1 := Option.some_inj.mp hsr
            obtain ⟨hS, hmem⟩ := ih p S hnd hs
            refine ⟨hS, fun w => ?_⟩
            rw [hmem w, List.foldl_cons]
            have hstep : liveStep w (decide (w ∈ p)) (win, ty) =
                decide (w ∈ p) := by
              unfold liveStep
              rw [if_neg (by intro hcon; exact hc hcon.2),
                if_neg (by intro hcon; exact hd hcon.2)]
            rw [hstep]
          · rw [if_neg hm] at hsr
            exact absurd hsr (by simp)


/-! ## Claim theorems -/

/-- Claim C1: the spec says every known message kind has a non-empty
inclusive length range matching the section-6 table, with both bounds of
WINDOW_HINTS (144) equal to the WindowHints struct size.  The code agrees
with the table for every kind except WindowHints, whose arm in
msg_length_limits uses size_of KeymapNotify (32) as the upper bound while
the lower bound is size_of WindowHints (36): the resulting range 36..=32 is
empty and no WINDOW_HINTS message of any length is ever accepted. -/
theorem C1_window_hints_length_bug :
    (∀ m : Msg, m ≠ .windowHints →
      msg_length_limits (msgToNat m) = specLengthColumn m) ∧
    msg_length_limits (msgToNat .windowHints) =
      some (sizeOfC windowHintsC, sizeOfC keymapNotifyC) ∧
    sizeOfC windowHintsC = 36 ∧
    sizeOfC keymapNotifyC = 32 ∧
    specLengthColumn .windowHints = some (36, 36) ∧
    (∀ n : Nat, rangeContains (36, 32) n = false) := by
  refine ⟨?_, by decide, by decide, by decide, by decide, ?_⟩
  · intro m hm
    cases m <;> first | decide | exact absurd rfl hm
  · intro n
    unfold rangeContains
    rcases Nat.lt_or_ge n 36 with h | h
    · simp only [Prod.fst]
      rw [decide_eq_false (by omega)]
      simp
    · simp only [Prod.snd]
      rw [decide_eq_false (show ¬ n ≤ 32 by omega)]
      simp

/-- Witness for claim C1: the table comparison at the MOTION kind. -/
theorem C1_witness :
    Msg.motion ≠ Msg.windowHints ∧
      msg_length_limits (msgToNat .motion) = specLengthColumn .motion :=
  ⟨by decide, C1_window_hints_length_bug.1 .motion (by decide)⟩

/-- Claim C2 counterexample: the claim says an agent-side stream that
receives a daemon version whose major half differs from the agent protocol
major 1 transitions to Error and read_message returns an error.  On
c2Stream, whose queue holds an XConfVersion block with version major 2, a
read_message call returns Ok(None), moves to ReadingHeader and raises the
reconnect flag: no error occurs and the Error state is never entered. -/
theorem C2_counterexample :
    leNum (c2Stream.vq.take 4) = 2 <<< 16 ∧
    leNum (c2Stream.vq.take 4) >>> 16 ≠ 1 ∧
    c2Stream.rstate = .readingXConf ∧
    (readMessage c2Stream).1 = .nothing ∧
    (readMessage c2Stream).1 ≠ .err ∧
    (readMessage c2Stream).2.rstate = .readingHeader ∧
    (readMessage c2Stream).2.rstate ≠ .error ∧
    (readMessage c2Stream).2.didReconnect = true := by decide

/-- Claim C2 amended: during version negotiation the agent-side stream
performs no validation of the daemon version at all: whenever at least
size_of XConfVersion bytes are ready, read_message stores the daemon block
verbatim, whatever its major half, transitions to ReadingHeader, raises the
reconnect flag and returns Ok(None). -/
theorem C2_amended_no_version_check (s : MStream)
    (hst : s.rstate = .readingXConf) (hx : s.xconf.length = 20)
    (hlen : 20 ≤ s.vq.length) :
    (readMessage s).1 = .nothing ∧
      (readMessage s).2.rstate = .readingHeader ∧
      (readMessage s).2.didReconnect = true ∧
      (readMessage s).2.xconf = s.vq.take 20 :=
  readMessage_xconf_stores_any_version s hst hx hlen

/-- Witness for claim C2: the amended theorem applied to c2Stream. -/
theorem C2_witness :
    c2Stream.xconf.length = 20 ∧ 20 ≤ c2Stream.vq.length ∧
      ((readMessage c2Stream).1 = .nothing ∧
        (readMessage c2Stream).2.rstate = .readingHeader ∧
        (readMessage c2Stream).2.didReconnect = true ∧
        (readMessage c2Stream).2.xconf = c2Stream.vq.take 20) :=
  ⟨by decide, by decide,
    C2_amended_no_version_check c2Stream rfl (by decide) (by decide)⟩

/-- Claim C3: a header of known kind whose untrusted length is outside the
legal range drives read_message to return an error with the stream in the
Error state; and the Error state is terminal: every read_message call on an
errored stream returns an error and never a message. -/
theorem C3_invalid_length_is_fatal :
    (∀ (s : MStream) (ty win n lo hi : Nat) (rest : List Nat),
      s.rstate = .readingHeader →
      s.vq = encodeHeader ty win n ++ rest →
      ty < 2 ^ 32 → win < 2 ^ 32 → n < 2 ^ 32 →
      msg_length_limits ty = some (lo, hi) →
      ¬ (lo ≤ n ∧ n ≤ hi) →
      (readMessage s).1 = .err ∧ (readMessage s).2.rstate = .error) ∧
    (∀ s : MStream, s.rstate = .error →
      (readMessage s).1 = .err ∧ (readMessage s).2.rstate = .error) :=
  ⟨fun s ty win n lo hi rest h1 h2 h3 h4 h5 h6 h7 =>
      readMessage_out_of_range s ty win n lo hi rest h1 h2 h3 h4 h5 h6 h7,
    fun s h => readMessage_error_state s h⟩

/-- Witness for claim C3: a MOTION header declaring 5 body bytes (legal
length is exactly 16) errors the stream, and a stream already in the Error
state keeps failing. -/
theorem C3_witness :
    ((readMessage c3Stream).1 = .err ∧
        (readMessage c3Stream).2.rstate = .error) ∧
      ((readMessage errStream).1 = .err ∧
        (readMessage errStream).2.rstate = .error) :=
  ⟨C3_invalid_length_is_fatal.1 c3Stream 126 1 5 16 16 [9, 9, 9, 9, 9] rfl
      rfl (by decide) (by decide) (by decide) (by decide) (by decide),
    C3_invalid_length_is_fatal.2 errStream rfl⟩

/-- Claim C4: the claim says an unknown-kind header with declared length n
never errors the stream and that its n body bytes are discarded possibly
across several calls, each bounded by the bytes currently ready.  The code
does this only when the whole body is already available (second conjunct
pair, on c4okStream the following CLOSE message parses correctly); on
c4Stream, where only 5 of the declared 10 bytes have arrived, the Discard
arm never decrements the ready count it sampled at entry, loops, and issues
a second 5-byte vchan read with 0 bytes available, on which libvchan_read
blocks instead of returning Ok(None) with Discard(5) pending. -/
theorem C4_unknown_partial_discard_blocks :
    msg_length_limits 999 = none ∧
    c4Stream.vq.length = 17 ∧
    (readMessage c4Stream).1 = .blocked ∧
    (readMessage c4Stream).2.rstate = .discard 5 ∧
    (readMessage c4okStream).1 = .msg ⟨msgToNat .close, 1, 0⟩ [] ∧
    (readMessage c4okStream).2.rstate = .readingHeader := by decide

/-- Claim C5: the write path loses, duplicates and reorders nothing: after
any single write call the bytes handed to vchan send followed by the queued
bytes are exactly the previously pending bytes followed by the new buffer
(the deque drains first, so order is FIFO), the bytes sent directly by one
call never exceed the buffer space available at its start, and over any
sequence of write calls the sent-then-queued bytes are exactly the
concatenation of all written buffers; the model write path is a total
function, so no call waits on the peer. -/
theorem C5_write_path_preserves_bytes :
    (∀ (space : Nat) (sent wq buf : List Nat),
      (streamWrite space sent wq buf).2.1 ++
            (streamWrite space sent wq buf).2.2 =
          sent ++ (wq ++ buf) ∧
        (∃ u, (streamWrite space sent wq buf).2.1 = sent ++ u) ∧
        (streamWrite space sent wq buf).2.1.length ≤ sent.length + space) ∧
    (∀ (ops : List (Nat × List Nat)) (space : Nat) (sent wq : List Nat),
      (writeTrace space sent wq ops).2.1 ++
          (writeTrace space sent wq ops).2.2 =
        sent ++ (wq ++ (ops.map Prod.snd).flatten)) :=
  ⟨streamWrite_inv, fun ops space sent wq => (writeTrace_inv ops space sent wq).1⟩

/-- Claim C6: WindowDimensions::new accepts exactly the dimensions with
positive width at most 16384 and positive height at most 6144; for every
accepted pair the buffer size is 4 times width times height with no u32
overflow, the grant count is the ceiling of the buffer size over the page
size and never exceeds MAX_GRANT_REFS_COUNT, and the maximal dimensions
are accepted. -/
theorem C6_dimension_checks :
    (∀ w h : Nat, (windowDimensionsNew w h).isSome ↔
      (0 < w ∧ w ≤ MAX_WINDOW_WIDTH ∧ 0 < h ∧ h ≤ MAX_WINDOW_HEIGHT)) ∧
    (∀ w h : Nat, 0 < w → w ≤ MAX_WINDOW_WIDTH → 0 < h →
      h ≤ MAX_WINDOW_HEIGHT →
      bufferSize w h = 4 * w * h ∧ bufferSize w h < 2 ^ 32 ∧
        4 * w * h ≤ grefs w h * XC_PAGE_SIZE ∧
        grefs w h * XC_PAGE_SIZE < 4 * w * h + XC_PAGE_SIZE ∧
        grefs w h ≤ MAX_GRANT_REFS_COUNT) ∧
    (windowDimensionsNew MAX_WINDOW_WIDTH MAX_WINDOW_HEIGHT).isSome :=
  ⟨windowDimensionsNew_isSome_iff, windowDimensions_numeric,
    windowDimensionsNew_max_ok⟩

/-- Witness for claim C6: the numeric part at the maximal dimensions. -/
theorem C6_witness :
    0 < (16384 : Nat) ∧
      (bufferSize 16384 6144 = 4 * 16384 * 6144 ∧
        bufferSize 16384 6144 < 2 ^ 32 ∧
        4 * 16384 * 6144 ≤ grefs 16384 6144 * XC_PAGE_SIZE ∧
        grefs 16384 6144 * XC_PAGE_SIZE < 4 * 16384 * 6144 + XC_PAGE_SIZE ∧
        grefs 16384 6144 ≤ MAX_GRANT_REFS_COUNT) :=
  ⟨by decide, C6_dimension_checks.2.1 16384 6144 (by decide) (by decide)
    (by decide) (by decide)⟩

/-- Claim C7: on an agent-side client, send_raw aborts (fails an assert)
exactly when a CREATE names a window already present, a DESTROY names an
absent window, or any other message names an absent window; and after any
successful trace of sends starting from the empty window set, a window is
in the set exactly when it is live per the spec reading, between its CREATE
and its matching DESTROY. -/
theorem C7_window_lifecycle :
    (∀ (present : List Nat) (w : Nat),
      (sendRaw true present w (msgToNat .create) = none ↔ w ∈ present)) ∧
    (∀ (present : List Nat) (w : Nat),
      (sendRaw true present w (msgToNat .destroy) = none ↔ w ∉ present)) ∧
    (∀ (present : List Nat) (w ty : Nat), ty ≠ msgToNat .create →
      ty ≠ msgToNat .destroy →
      (sendRaw true present w ty = none ↔ w ∉ present)) ∧
    (∀ (trace : List (Nat × Nat)) (S : List Nat) (w : Nat),
      sendTrace [] trace = some S → (w ∈ S ↔ liveAfter trace w = true)) := by
  refine ⟨?_, ?_, ?_, ?_⟩
  · intro present w
    unfold sendRaw
    rw [if_pos rfl, if_pos rfl]
    by_cases hm : w ∈ present <;> simp [hm]
  · intro present w
    unfold sendRaw
    rw [if_pos rfl, if_neg (by decide), if_pos rfl]
    by_cases hm : w ∈ present <;> simp [hm]
  · intro present w ty hc hd
    unfold sendRaw
    rw [if_pos rfl, if_neg hc, if_neg hd]
    by_cases hm : w ∈ present <;> simp [hm]
  · intro trace S w hs
    have hmem := (sendTrace_mem trace [] S (by simp) hs).2 w
    have h0 : decide (w ∈ ([] : List Nat)) = false := decide_eq_false (by simp)
    rw [h0] at hmem
    exact hmem

/-- Witness for claim C7: a trace creating windows 5 and 6 and destroying
window 5 leaves exactly window 6 present and live. -/
theorem C7_witness :
    sendTrace []
        [(5, msgToNat .create), (6, msgToNat .create), (5, msgToNat .destroy)] =
      some [6] ∧
    ((6 : Nat) ∈ [(6 : Nat)] ↔ liveAfter
      [(5, msgToNat .create), (6, msgToNat .create), (5, msgToNat .destroy)] 6 =
        true) :=
  ⟨by decide, C7_window_lifecycle.2.2.2
    [(5, msgToNat .create), (6, msgToNat .create), (5, msgToNat .destroy)]
    [6] 6 (by decide)⟩

/-- Claim C8: Buffer::write succeeds exactly when offset plus length does
not overflow usize, stays within the 4 times width times height byte size,
and both length and offset are multiples of 4 (each violation is a panic,
modelled as none); and on success it copies exactly the given bytes to
offset, touching only indices inside the mapping bounds. -/
theorem C8_buffer_write_checks :
    (∀ (w h : Nat) (fb : Nat → Nat) (buf : List Nat) (offset : Nat),
      (bufferWrite w h fb buf offset).isSome ↔
        (buf.length + offset < usizeBound ∧
          buf.length + offset ≤ bufferSize w h ∧
          buf.length % 4 = 0 ∧ offset % 4 = 0)) ∧
    (∀ (w h : Nat) (fb : Nat → Nat) (buf : List Nat) (offset : Nat)
      (fb2 : Nat → Nat), bufferWrite w h fb buf offset = some fb2 →
      (∀ i, i < buf.length → fb2 (offset + i) = buf.getD i 0) ∧
        (∀ i, fb2 i ≠ fb i →
          offset ≤ i ∧ i < offset + buf.length ∧ i < bufferSize w h)) :=
  ⟨bufferWrite_isSome_iff, bufferWrite_copy⟩

/-- Witness for claim C8: writing four bytes at offset 0 of a 1 by 1
buffer. -/
theorem C8_witness :
    bufferWrite 1 1 (fun _ => 0) [7, 8, 9, 10] 0 = some c8Result ∧
      ((∀ i, i < [7, 8, 9, 10].length →
          c8Result (0 + i) = [7, 8, 9, 10].getD i 0) ∧
        (∀ i, c8Result i ≠ (fun _ => (0 : Nat)) i →
          0 ≤ i ∧ i < 0 + [7, 8, 9, 10].length ∧ i < bufferSize 1 1)) :=
  ⟨rfl, C8_buffer_write_checks.2 1 1 (fun _ => 0) [7, 8, 9, 10] 0 c8Result rfl⟩

/-- Claim C9: for every castable type and every well-formed value of it,
from_bytes of as_bytes is the identity. -/
theorem C9_castable_roundtrip (t : CType) (v : CVal) (h : wfC t v = true) :
    fromBytes t (asBytes v) = some v :=
  fromBytes_asBytes t v h

/-- Witness for claim C9: the roundtrip at a sample Create message, which
exercises nested structs and the Option NonZeroU32 niche. -/
theorem C9_witness :
    wfC createC sampleCreateV = true ∧
      fromBytes createC (asBytes sampleCreateV) = some sampleCreateV :=
  ⟨by decide, C9_castable_roundtrip createC sampleCreateV (by decide)⟩

/-- Claim C10: the Discard arm of read_message never grows the scratch
buffer beyond the larger of 256 bytes and its previous length, whether the
arm halts the call or continues the loop, so a hostile untrusted_length
cannot force an allocation proportional to the declared size. -/
theorem C10_discard_buffer_bound (ready n : Nat) (s : MStream) :
    (resultStream (discardArm ready n s)).buffer.length ≤
      max 256 s.buffer.length :=
  discardArm_buffer_bound ready n s

end QubesGui
